import Mathlib

/-!
Shallow embedding of the Function-Cooldowns rate limiter
(`cooldowns/cooldown.py`) together with the parts of its data model
(`CooldownTimesPer`, `_HashableArguments`, `CooldownBucket`, the exception
classes) that the package references from sibling modules; those modules
are not among the sources here, so they are modelled from the
specification where noted.

Time is modelled as `Nat` ticks.  Call arguments are modelled as a list of
`Nat` positional values plus an association list of keyword name/value
pairs in canonical (call-site) form.  Python dict state is modelled as an
association list with unique keys (`Cooldown.WF`).
-/

/-- Modelled from the spec (the `buckets` module is not among the sources):
`_HashableArguments`, an immutable, order-sensitive canonical representation
of the positional and keyword arguments of a call, compared structurally.
Keyword mappings are represented as association lists in canonical call-site
form.  The leading underscore of the Python name is dropped. -/
structure HashableArguments where
  args : List Nat
  kwargs : List (String × Nat)
deriving DecidableEq

/-- Modelled from the spec (the package `__init__` and `protocols` modules are
not among the sources): the built-in `CooldownBucket` strategy members.  Their
`process` methods return, respectively, both argument collections, the
positional arguments only, and the keyword arguments only; `Cooldown.get_bucket`
branches on member identity exactly as the source does, so `process` is
inlined there per branch. -/
inductive CooldownBucket where
  | all
  | args
  | kwargs
deriving DecidableEq

/-- Modelled from the spec (the `cooldown_times_per` module is not among the
sources): the per-bucket fixed-duration window tracker.  `consumed` calls have
been used in the window running from `window_start` to `window_deadline`;
`owner` stands for the back-reference to the coordinator that constructed the
tracker, represented by the `id` of that coordinator. -/
structure CooldownTimesPer where
  limit : Nat
  time_period : Nat
  consumed : Nat
  window_start : Nat
  window_deadline : Nat
  owner : Nat
deriving DecidableEq

/-- Modelled from the spec: a freshly constructed tracker has zero consumption
and a window that has not yet started (deadline `0`, so the first acquisition
resets it). -/
def CooldownTimesPer.fresh (limit time_period owner : Nat) : CooldownTimesPer :=
  { limit := limit, time_period := time_period, consumed := 0,
    window_start := 0, window_deadline := 0, owner := owner }

/-- Modelled from the spec: the remaining-call count of a tracker, the
quantity `remaining_calls` reads off an existing tracker as `current`;
it equals `limit - consumed`. -/
def CooldownTimesPer.current (t : CooldownTimesPer) : Nat :=
  t.limit - t.consumed

/-- Modelled from the spec: `has_cooldown` holds exactly when the tracker has
unexpired consumption, namely `consumed > 0` within a still-valid window. -/
def CooldownTimesPer.has_cooldown (t : CooldownTimesPer) (now : Nat) : Bool :=
  decide (0 < t.consumed) && decide (now < t.window_deadline)

/-- Modelled from the spec: acquisition (`__aenter__`) of the fixed-duration
tracker.  If the deadline has passed, the window resets (`consumed := 0`, new
start and deadline) before the check; then a call under the limit increments
`consumed` and succeeds, and a call at the limit fails with
`retry_after = window_deadline - now`. -/
def CooldownTimesPer.aenter (t : CooldownTimesPer) (now : Nat) :
    Except Nat CooldownTimesPer :=
  let t₁ :=
    if t.window_deadline ≤ now then
      { t with consumed := 0, window_start := now,
               window_deadline := now + t.time_period }
    else t
  if t₁.consumed < t₁.limit then Except.ok { t₁ with consumed := t₁.consumed + 1 }
  else Except.error (t₁.window_deadline - now)

/-- Modelled from the spec (the `exceptions` module is not among the sources):
the internal absent signal raised by the non-creating cache lookup. -/
inductive NonExistent where
  | nonExistent
deriving DecidableEq

/-- Modelled from the spec (the `exceptions` module is not among the sources):
the sole caller-visible rejection, carrying the offending bucket and the
retry-after metadata from the tracker. -/
structure CallableOnCooldown where
  bucket : HashableArguments
  retry_after : Nat
deriving DecidableEq

/-- Modelled from the spec (the source raises Python `RuntimeError` for this
case; the spec groups it under configuration errors): failure mode of the
wrapping layer. -/
inductive ConfigurationError where
  | notCoroutine
deriving DecidableEq

/-- The `_cache` dictionary of a coordinator, as an association list. -/
abbrev BucketCache := List (HashableArguments × CooldownTimesPer)

/-- Dictionary lookup on the cache (first matching key). -/
def cacheLookup : BucketCache → HashableArguments → Option CooldownTimesPer
  | [], _ => none
  | (q, v) :: rest, b => if q = b then some v else cacheLookup rest b

/-- Dictionary insertion of a key that is not yet present (Python dicts append
new keys in insertion order). -/
def cacheInsert (cache : BucketCache) (b : HashableArguments)
    (t : CooldownTimesPer) : BucketCache :=
  cache ++ [(b, t)]

/-- Dictionary deletion (`del`) of a key; with unique keys this removes the
single entry for `b`. -/
def cacheRemove : BucketCache → HashableArguments → BucketCache
  | [], _ => []
  | (q, v) :: rest, b =>
      if q = b then cacheRemove rest b else (q, v) :: cacheRemove rest b

/-- In-place mutation of the tracker stored under an existing key: the value
under `b` becomes `t`. -/
def cacheSet : BucketCache → HashableArguments → CooldownTimesPer → BucketCache
  | [], _, _ => []
  | (q, v) :: rest, b, t =>
      if q = b then (q, t) :: cacheSet rest b t else (q, v) :: cacheSet rest b t

/-- Embedding of the `Cooldown` coordinator state (src `cooldowns/cooldown.py`
lines 93-141).  `id` identifies the coordinator and stands for the `self`
back-reference handed to each tracker it constructs; the event loop, the
clean-task handle, `pending_reset`, `cooldown_id` and the wrapped-function
reference carry no claim-relevant state and are omitted. -/
structure Cooldown where
  id : Nat
  limit : Nat
  time_period : Nat
  bucket : CooldownBucket
  cache : BucketCache
  last_bucket : Option HashableArguments
deriving DecidableEq

/-- Embedding of `Cooldown.__init__` (src lines 96-141): the constructor
stores the limit, the time period and the bucket strategy and starts with an
empty cache and no last-resolved bucket.  The body performs no validation of
`limit` or `time_period`, so the result is `ok` for every input. -/
def Cooldown.init (id limit time_period : Nat) (bucket : CooldownBucket) :
    Except ConfigurationError Cooldown :=
  Except.ok { id := id, limit := limit, time_period := time_period,
              bucket := bucket, cache := [], last_bucket := none }

/-- Embedding of the `decorator` body of `cooldown` (src lines 68-75): wrapping
raises `RuntimeError` when the wrapped callable is not a coroutine function
(`asyncio.iscoroutinefunction`, the boolean input here), and otherwise attaches
the coordinator and returns the wrapper. -/
def cooldown_decorator (func_is_coroutine : Bool) (c : Cooldown) :
    Except ConfigurationError Cooldown :=
  if func_is_coroutine then Except.ok c
  else Except.error ConfigurationError.notCoroutine

/-- Embedding of `Cooldown.get_bucket` (src lines 167-200), with the
spec-modelled `process` of the built-in bucket members inlined per branch:
`all` keys on both argument collections, `args` on the positional arguments
only, `kwargs` on the keyword arguments only.  The method body only reads
`self._bucket` and assigns nothing, which the returned unchanged coordinator
makes explicit. -/
def Cooldown.get_bucket (c : Cooldown) (a : List Nat)
    (k : List (String × Nat)) : HashableArguments × Cooldown :=
  match c.bucket with
  | CooldownBucket.all => ({ args := a, kwargs := k }, c)
  | CooldownBucket.args => ({ args := a, kwargs := [] }, c)
  | CooldownBucket.kwargs => ({ args := [], kwargs := k }, c)

/-- Embedding of `Cooldown._get_cooldown_for_bucket` (src lines 154-165):
return the cached tracker if present; otherwise raise `NonExistent` when
`raise_on_create` is set, else construct
`CooldownTimesPer(self.limit, self.time_period, self)`, insert it under the
key, and return it. -/
def Cooldown.get_cooldown_for_bucket (c : Cooldown) (b : HashableArguments)
    (raise_on_create : Bool) : Except NonExistent CooldownTimesPer × Cooldown :=
  match cacheLookup c.cache b with
  | some t => (Except.ok t, c)
  | none =>
      if raise_on_create then (Except.error NonExistent.nonExistent, c)
      else
        let t := CooldownTimesPer.fresh c.limit c.time_period c.id
        (Except.ok t, { c with cache := cacheInsert c.cache b t })

/-- The `raise_on_create := false` mode of `Cooldown._get_cooldown_for_bucket`
(the default mode, the one `Cooldown.__aenter__` uses), written as a total
function; `get_cooldown_for_bucket_false` proves agreement with the embedding
of the flagged source function. -/
def Cooldown.get_or_create (c : Cooldown) (b : HashableArguments) :
    CooldownTimesPer × Cooldown :=
  match cacheLookup c.cache b with
  | some t => (t, c)
  | none =>
      let t := CooldownTimesPer.fresh c.limit c.time_period c.id
      (t, { c with cache := cacheInsert c.cache b t })

/-- Embedding of one pass through the cooldown path of the wrapper:
`Cooldown.__call__` (src lines 150-152) resolves the bucket and records it as
the last-resolved bucket, then `Cooldown.__aenter__` (src lines 142-145)
fetches or creates the tracker of that bucket and acquires it; a tracker
failure surfaces as `CallableOnCooldown` carrying the bucket and retry-after
metadata, and a successful acquisition writes the mutated tracker back. -/
def Cooldown.call (c : Cooldown) (now : Nat) (a : List Nat)
    (k : List (String × Nat)) : Except CallableOnCooldown Unit × Cooldown :=
  let b := (c.get_bucket a k).1
  let c₁ := { c with last_bucket := some b }
  let tc := c₁.get_or_create b
  match (tc.1).aenter now with
  | Except.ok t' => (Except.ok (), { tc.2 with cache := cacheSet tc.2.cache b t' })
  | Except.error retry =>
      (Except.error { bucket := b, retry_after := retry }, tc.2)

/-- Embedding of the wrapper `inner` (src lines 77-88): evaluate the check
with the arguments of the call; when it is falsy, invoke the wrapped callable
directly and return its result; otherwise take the cooldown path and, on
success, return the result of the wrapped callable. -/
def Cooldown.inner {ρ : Type} (c : Cooldown)
    (check : List Nat → List (String × Nat) → Bool)
    (f : List Nat → List (String × Nat) → ρ)
    (now : Nat) (a : List Nat) (k : List (String × Nat)) :
    Except CallableOnCooldown ρ × Cooldown :=
  if check a k = false then (Except.ok (f a k), c)
  else
    match c.call now a k with
    | (Except.ok _, c') => (Except.ok (f a k), c')
    | (Except.error e, c') => (Except.error e, c')

/-- The `try`-block body of `Cooldown.clear` (src lines 234-241) for one key:
evict the entry unless it is tracking an active cooldown and `force_evict` is
unset; a missing key raises `KeyError`, which is caught, leaving a no-op. -/
def Cooldown.clear_one (c : Cooldown) (b : HashableArguments) (now : Nat)
    (force_evict : Bool) : Cooldown :=
  match cacheLookup c.cache b with
  | some t =>
      if !(t.has_cooldown now) || force_evict then
        { c with cache := cacheRemove c.cache b }
      else c
  | none => c

/-- Embedding of `Cooldown.clear` (src lines 207-241).  With a key given, the
per-key rule `clear_one` runs once.  With no key, the rule runs over a
snapshot of the key set (`list(self._cache.keys())`); in the source the loop
variable still holds the last key when control falls through to the `try`
block, so that key is processed once more, which the idempotence lemma shows
is a no-op.  Bucket keys are assumed truthy, as instances of the Python key
class are. -/
def Cooldown.clear (c : Cooldown) (bucket : Option HashableArguments)
    (now : Nat) (force_evict : Bool) : Cooldown :=
  match bucket with
  | some b => c.clear_one b now force_evict
  | none =>
      let keys := c.cache.map Prod.fst
      let c' := keys.foldl (fun acc b => acc.clear_one b now force_evict) c
      match keys.getLast? with
      | some b => c'.clear_one b now force_evict
      | none => c'

/-- Embedding of one cycle of `Cooldown._keep_buckets_clear` (src lines
202-205): each wake-up of the background sweep task invokes the global
`clear` with `force_evict` left at its default `False`. -/
def Cooldown.keep_buckets_clear_step (c : Cooldown) (now : Nat) : Cooldown :=
  c.clear none now false

/-- Embedding of `Cooldown.remaining_calls` (src lines 243-270): resolve the
bucket, look its tracker up without creating (`raise_on_create=True`); a
caught `NonExistent` yields `self.limit`, otherwise the `current` remaining
count of the tracker. -/
def Cooldown.remaining_calls (c : Cooldown) (a : List Nat)
    (k : List (String × Nat)) : Nat × Cooldown :=
  let b := (c.get_bucket a k).1
  match c.get_cooldown_for_bucket b true with
  | (Except.error _, c') => (c.limit, c')
  | (Except.ok t, c') => (t.current, c')

/-- Sequential composition of wrapped calls at the given times, collecting the
outcome of each call and threading the coordinator state. -/
def Cooldown.run_calls {ρ : Type} (c : Cooldown)
    (check : List Nat → List (String × Nat) → Bool)
    (f : List Nat → List (String × Nat) → ρ)
    (ts : List Nat) (a : List Nat) (k : List (String × Nat)) :
    List (Except CallableOnCooldown ρ) × Cooldown :=
  match ts with
  | [] => ([], c)
  | now :: rest =>
      let rc := c.inner check f now a k
      let rest' := rc.2.run_calls check f rest a k
      (rc.1 :: rest'.1, rest'.2)

/-- Well-formedness of the cache as a model of a Python dict: keys are
pairwise distinct. -/
def Cooldown.WF (c : Cooldown) : Prop :=
  (c.cache.map Prod.fst).Nodup

/-- Every cached tracker carries exactly the limit and time period of its
coordinator and the back-reference to that same coordinator. -/
def Cooldown.TrackerInv (c : Cooldown) : Prop :=
  ∀ b t, cacheLookup c.cache b = some t →
    t.limit = c.limit ∧ t.time_period = c.time_period ∧ t.owner = c.id

/-! ### Cache lemmas -/

theorem cacheLookup_remove_self (l : BucketCache) (b : HashableArguments) :
    cacheLookup (cacheRemove l b) b = none := by
  induction l with
  | nil => rfl
  | cons p rest ih =>
      obtain ⟨q, v⟩ := p
      by_cases h : q = b
      · simp [cacheRemove, h, ih]
      · simp [cacheRemove, cacheLookup, h, ih]

theorem cacheLookup_remove_other (l : BucketCache) (b b' : HashableArguments)
    (h : b' ≠ b) : cacheLookup (cacheRemove l b) b' = cacheLookup l b' := by
  induction l with
  | nil => rfl
  | cons p rest ih =>
      obtain ⟨q, v⟩ := p
      by_cases hq : q = b
      · subst hq
        simp [cacheRemove, cacheLookup, Ne.symm h, ih]
      · by_cases hq' : q = b'
        · simp [cacheRemove, cacheLookup, hq, hq', h]
        · simp [cacheRemove, cacheLookup, hq, hq', ih]

theorem cacheRemove_of_absent (l : BucketCache) (b : HashableArguments)
    (h : cacheLookup l b = none) : cacheRemove l b = l := by
  induction l with
  | nil => rfl
  | cons p rest ih =>
      obtain ⟨q, v⟩ := p
      by_cases hq : q = b
      · simp [cacheLookup, hq] at h
      · simp [cacheLookup, hq] at h
        simp [cacheRemove, hq, ih h]

theorem cacheLookup_set_self (l : BucketCache) (b : HashableArguments)
    (t t₀ : CooldownTimesPer) (h : cacheLookup l b = some t₀) :
    cacheLookup (cacheSet l b t) b = some t := by
  induction l with
  | nil => simp [cacheLookup] at h
  | cons p rest ih =>
      obtain ⟨q, v⟩ := p
      by_cases hq : q = b
      · simp [cacheSet, cacheLookup, hq]
      · simp [cacheLookup, hq] at h
        simp [cacheSet, cacheLookup, hq, ih h]

theorem cacheLookup_set_other (l : BucketCache) (b b' : HashableArguments)
    (t : CooldownTimesPer) (h : b' ≠ b) :
    cacheLookup (cacheSet l b t) b' = cacheLookup l b' := by
  induction l with
  | nil => rfl
  | cons p rest ih =>
      obtain ⟨q, v⟩ := p
      by_cases hq : q = b
      · subst hq
        simp [cacheSet, cacheLookup, Ne.symm h, ih]
      · by_cases hq' : q = b'
        · simp [cacheSet, cacheLookup, hq, hq', h]
        · simp [cacheSet, cacheLookup, hq, hq', ih]

theorem cacheLookup_append (l₁ l₂ : BucketCache) (b : HashableArguments) :
    cacheLookup (l₁ ++ l₂) b =
      match cacheLookup l₁ b with
      | some t => some t
      | none => cacheLookup l₂ b := by
  induction l₁ with
  | nil => simp [cacheLookup]
  | cons p rest ih =>
      obtain ⟨q, v⟩ := p
      by_cases hq : q = b
      · simp [cacheLookup, hq]
      · simp [cacheLookup, hq, ih]

theorem cacheLookup_insert_self (l : BucketCache) (b : HashableArguments)
    (t : CooldownTimesPer) (h : cacheLookup l b = none) :
    cacheLookup (cacheInsert l b t) b = some t := by
  rw [cacheInsert, cacheLookup_append, h]
  simp [cacheLookup]

theorem cacheSet_insert_absent (l : BucketCache) (b : HashableArguments)
    (t t' : CooldownTimesPer) (h : cacheLookup l b = none) :
    cacheSet (cacheInsert l b t) b t' = cacheInsert l b t' := by
  induction l with
  | nil => simp [cacheInsert, cacheSet]
  | cons p rest ih =>
      obtain ⟨q, v⟩ := p
      by_cases hq : q = b
      · simp [cacheLookup, hq] at h
      · simp [cacheLookup, hq] at h
        simpa [cacheInsert, cacheSet, hq] using ih h

theorem cacheLookup_filter (l : BucketCache) (q : CooldownTimesPer → Bool)
    (b : HashableArguments) (t : CooldownTimesPer)
    (h : cacheLookup (l.filter (fun p => q p.2)) b = some t) : q t = true := by
  induction l with
  | nil => simp [cacheLookup] at h
  | cons p rest ih =>
      obtain ⟨x, v⟩ := p
      by_cases hv : q v = true
      · rw [List.filter_cons_of_pos (by simpa using hv)] at h
        by_cases hx : x = b
        · rw [cacheLookup, if_pos hx] at h
          cases h
          exact hv
        · rw [cacheLookup, if_neg hx] at h
          exact ih h
      · rw [List.filter_cons_of_neg (by simpa using hv)] at h
        exact ih h

theorem cacheLookup_filter_of_pred (l : BucketCache) (q : CooldownTimesPer → Bool)
    (b : HashableArguments) (t : CooldownTimesPer)
    (h : cacheLookup l b = some t) (ht : q t = true) :
    cacheLookup (l.filter (fun p => q p.2)) b = some t := by
  induction l with
  | nil => simp [cacheLookup] at h
  | cons p rest ih =>
      obtain ⟨x, v⟩ := p
      by_cases hx : x = b
      · rw [cacheLookup, if_pos hx] at h
        cases h
        rw [List.filter_cons_of_pos (by simpa using ht)]
        rw [cacheLookup, if_pos hx]
      · rw [cacheLookup, if_neg hx] at h
        by_cases hv : q v = true
        · rw [List.filter_cons_of_pos (by simpa using hv), cacheLookup, if_neg hx]
          exact ih h
        · rw [List.filter_cons_of_neg (by simpa using hv)]
          exact ih h

theorem cacheLookup_of_not_mem (l : BucketCache) (b : HashableArguments)
    (h : b ∉ l.map Prod.fst) : cacheLookup l b = none := by
  induction l with
  | nil => rfl
  | cons p rest ih =>
      obtain ⟨q, v⟩ := p
      simp only [List.map_cons, List.mem_cons] at h
      push_neg at h
      rw [cacheLookup, if_neg (fun hq => h.1 hq.symm)]
      exact ih h.2

theorem cacheRemove_append (l₁ l₂ : BucketCache) (b : HashableArguments) :
    cacheRemove (l₁ ++ l₂) b = cacheRemove l₁ b ++ cacheRemove l₂ b := by
  induction l₁ with
  | nil => rfl
  | cons p rest ih =>
      obtain ⟨q, v⟩ := p
      by_cases hq : q = b
      · simp [cacheRemove, hq, ih]
      · simp [cacheRemove, hq, ih]

/-! ### Lemmas about `clear` -/

theorem clear_one_absent (c : Cooldown) (b : HashableArguments) (now : Nat)
    (force : Bool) (h : cacheLookup c.cache b = none) :
    c.clear_one b now force = c := by
  rw [Cooldown.clear_one, h]

theorem clear_one_keep (c : Cooldown) (b : HashableArguments) (now : Nat)
    (t : CooldownTimesPer) (h : cacheLookup c.cache b = some t)
    (hc : t.has_cooldown now = true) :
    c.clear_one b now false = c := by
  rw [Cooldown.clear_one, h]
  simp [hc]

theorem clear_one_noop (c : Cooldown) (b : HashableArguments) (now : Nat)
    (force : Bool) (t : CooldownTimesPer) (h : cacheLookup c.cache b = some t)
    (hc : (!(t.has_cooldown now) || force) = false) :
    c.clear_one b now force = c := by
  rw [Cooldown.clear_one, h]
  simp only [hc]
  rfl

theorem clear_one_evict (c : Cooldown) (b : HashableArguments) (now : Nat)
    (force : Bool) (t : CooldownTimesPer) (h : cacheLookup c.cache b = some t)
    (hc : (!(t.has_cooldown now) || force) = true) :
    c.clear_one b now force = { c with cache := cacheRemove c.cache b } := by
  rw [Cooldown.clear_one, h]
  simp [hc]

theorem clear_one_noop_of_filtered (c : Cooldown) (now : Nat) (force : Bool)
    (l : BucketCache)
    (h : c.cache = l.filter (fun p => p.2.has_cooldown now && !force))
    (b : HashableArguments) : c.clear_one b now force = c := by
  rw [Cooldown.clear_one]
  cases hl : cacheLookup c.cache b with
  | none => rfl
  | some t =>
      rw [h] at hl
      have hp := cacheLookup_filter l (fun t => t.has_cooldown now && !force) b t hl
      simp only [Bool.and_eq_true, Bool.not_eq_true'] at hp
      simp [hp.1, hp.2]

theorem foldl_clear_one_filter (now : Nat) (force : Bool) :
    ∀ (l pre : BucketCache) (c : Cooldown),
      c.cache = pre ++ l →
      (∀ p ∈ l, cacheLookup pre p.1 = none) →
      (l.map Prod.fst).Nodup →
      (l.map Prod.fst).foldl (fun acc b => acc.clear_one b now force) c =
        { c with cache := pre ++ l.filter (fun p => p.2.has_cooldown now && !force) } := by
  intro l
  induction l with
  | nil =>
      intro pre c hc _ _
      simp [← hc]
  | cons p rest ih =>
      intro pre c hc habs hnd
      obtain ⟨q, v⟩ := p
      simp only [List.map_cons, List.nodup_cons] at hnd
      have hpreq : cacheLookup pre q = none := habs (q, v) (List.mem_cons_self _ _)
      have hlq : cacheLookup c.cache q = some v := by
        rw [hc, cacheLookup_append, hpreq]
        simp [cacheLookup]
      have hrestq : cacheLookup rest q = none :=
        cacheLookup_of_not_mem rest q hnd.1
      simp only [List.map_cons, List.foldl_cons]
      by_cases hkeep : (v.has_cooldown now && !force) = true
      · have hcond : (!(v.has_cooldown now) || force) = false := by
          simp only [Bool.and_eq_true, Bool.not_eq_true'] at hkeep
          simp [hkeep.1, hkeep.2]
        rw [clear_one_noop c q now force v hlq hcond]
        rw [ih (pre ++ [(q, v)]) c (by simp [hc])
          (by
            intro p hp
            have hne : q ≠ p.1 := by
              intro he
              exact hnd.1 (he ▸ List.mem_map_of_mem Prod.fst hp)
            rw [cacheLookup_append, habs p (List.mem_cons_of_mem _ hp)]
            show cacheLookup [(q, v)] p.1 = none
            rw [cacheLookup, if_neg hne]
            rfl)
          hnd.2]
        rw [List.filter_cons_of_pos (by simpa using hkeep)]
        rw [List.append_assoc]
        rfl
      · have hcond : (!(v.has_cooldown now) || force) = true := by
          cases hhc : v.has_cooldown now <;> cases hf : force <;> simp_all
        rw [clear_one_evict c q now force v hlq hcond]
        have hrm : cacheRemove c.cache q = pre ++ rest := by
          rw [hc, cacheRemove_append, cacheRemove_of_absent pre q hpreq]
          show pre ++ cacheRemove ((q, v) :: rest) q = pre ++ rest
          rw [cacheRemove, if_pos rfl, cacheRemove_of_absent rest q hrestq]
        rw [hrm]
        rw [ih pre { c with cache := pre ++ rest } rfl
          (fun p hp => habs p (List.mem_cons_of_mem _ hp)) hnd.2]
        rw [List.filter_cons_of_neg (by simpa using hkeep)]

theorem clear_none_eq_filter (c : Cooldown) (now : Nat) (force : Bool)
    (hwf : c.WF) :
    c.clear none now force =
      { c with cache := c.cache.filter (fun p => p.2.has_cooldown now && !force) } := by
  rw [Cooldown.clear]
  have hfold := foldl_clear_one_filter now force c.cache [] c (by simp)
    (by intro p _; rfl) hwf
  simp only [List.nil_append] at hfold
  rw [hfold]
  cases hk : (c.cache.map Prod.fst).getLast? with
  | none => rfl
  | some b =>
      exact clear_one_noop_of_filtered _ now force c.cache rfl b

/-! ### Unfolding lemmas for the cache accessors -/

theorem get_cooldown_for_bucket_present (c : Cooldown) (b : HashableArguments)
    (t : CooldownTimesPer) (roc : Bool) (h : cacheLookup c.cache b = some t) :
    c.get_cooldown_for_bucket b roc = (Except.ok t, c) := by
  simp [Cooldown.get_cooldown_for_bucket, h]

theorem get_cooldown_for_bucket_absent_raise (c : Cooldown)
    (b : HashableArguments) (h : cacheLookup c.cache b = none) :
    c.get_cooldown_for_bucket b true = (Except.error NonExistent.nonExistent, c) := by
  simp [Cooldown.get_cooldown_for_bucket, h]

theorem get_cooldown_for_bucket_absent_create (c : Cooldown)
    (b : HashableArguments) (h : cacheLookup c.cache b = none) :
    c.get_cooldown_for_bucket b false =
      (Except.ok (CooldownTimesPer.fresh c.limit c.time_period c.id),
       { c with cache :=
          cacheInsert c.cache b (CooldownTimesPer.fresh c.limit c.time_period c.id) }) := by
  simp [Cooldown.get_cooldown_for_bucket, h]

theorem get_or_create_present (c : Cooldown) (b : HashableArguments)
    (t : CooldownTimesPer) (h : cacheLookup c.cache b = some t) :
    c.get_or_create b = (t, c) := by
  simp [Cooldown.get_or_create, h]

theorem get_or_create_absent (c : Cooldown) (b : HashableArguments)
    (h : cacheLookup c.cache b = none) :
    c.get_or_create b =
      (CooldownTimesPer.fresh c.limit c.time_period c.id,
       { c with cache :=
          cacheInsert c.cache b (CooldownTimesPer.fresh c.limit c.time_period c.id) }) := by
  simp [Cooldown.get_or_create, h]

theorem get_cooldown_for_bucket_false (c : Cooldown) (b : HashableArguments) :
    c.get_cooldown_for_bucket b false =
      (Except.ok (c.get_or_create b).1, (c.get_or_create b).2) := by
  cases h : cacheLookup c.cache b with
  | some t => rw [get_cooldown_for_bucket_present c b t false h, get_or_create_present c b t h]
  | none => rw [get_cooldown_for_bucket_absent_create c b h, get_or_create_absent c b h]

/-! ### Step lemmas for the call path -/

theorem fresh_aenter (L P o now : Nat) :
    (CooldownTimesPer.fresh L P o).aenter now =
      if 0 < L then
        Except.ok { limit := L, time_period := P, consumed := 1,
                    window_start := now, window_deadline := now + P, owner := o }
      else Except.error P := by
  rw [CooldownTimesPer.aenter]
  simp [CooldownTimesPer.fresh, Nat.add_sub_cancel_left]

theorem aenter_no_reset (t : CooldownTimesPer) (now : Nat)
    (hnow : now < t.window_deadline) :
    t.aenter now =
      if t.consumed < t.limit then Except.ok { t with consumed := t.consumed + 1 }
      else Except.error (t.window_deadline - now) := by
  rw [CooldownTimesPer.aenter]
  simp [Nat.not_le.mpr hnow]

theorem call_present (c : Cooldown) (now : Nat) (a : List Nat)
    (k : List (String × Nat)) (b : HashableArguments) (t : CooldownTimesPer)
    (hb : (c.get_bucket a k).1 = b) (h : cacheLookup c.cache b = some t) :
    c.call now a k =
      match t.aenter now with
      | Except.ok t' =>
          (Except.ok (),
           { c with
             last_bucket := some b,
             cache := cacheSet c.cache b t' })
      | Except.error r =>
          (Except.error { bucket := b, retry_after := r },
           { c with last_bucket := some b }) := by
  have h₁ : ({ c with last_bucket := some b } : Cooldown).get_or_create b =
      (t, { c with last_bucket := some b }) := get_or_create_present _ b t h
  rw [Cooldown.call, hb]
  rw [h₁]

theorem call_absent (c : Cooldown) (now : Nat) (a : List Nat)
    (k : List (String × Nat)) (b : HashableArguments)
    (hb : (c.get_bucket a k).1 = b) (h : cacheLookup c.cache b = none) :
    c.call now a k =
      match (CooldownTimesPer.fresh c.limit c.time_period c.id).aenter now with
      | Except.ok t' =>
          (Except.ok (),
           { c with
             last_bucket := some b,
             cache := cacheSet
               (cacheInsert c.cache b (CooldownTimesPer.fresh c.limit c.time_period c.id))
               b t' })
      | Except.error r =>
          (Except.error { bucket := b, retry_after := r },
           { c with
             last_bucket := some b,
             cache :=
               cacheInsert c.cache b (CooldownTimesPer.fresh c.limit c.time_period c.id) }) := by
  have h₁ : ({ c with last_bucket := some b } : Cooldown).get_or_create b =
      (CooldownTimesPer.fresh c.limit c.time_period c.id,
       { c with
         last_bucket := some b,
         cache :=
           cacheInsert c.cache b (CooldownTimesPer.fresh c.limit c.time_period c.id) }) :=
    get_or_create_absent _ b h
  rw [Cooldown.call, hb]
  rw [h₁]

theorem inner_with_true {ρ : Type} (c : Cooldown)
    (f : List Nat → List (String × Nat) → ρ) (now : Nat) (a : List Nat)
    (k : List (String × Nat)) :
    c.inner (fun _ _ => true) f now a k =
      match c.call now a k with
      | (Except.ok _, c') => (Except.ok (f a k), c')
      | (Except.error e, c') => (Except.error e, c') := by
  rw [Cooldown.inner]
  simp

theorem get_bucket_fst_congr (c c' : Cooldown) (hbk : c'.bucket = c.bucket)
    (a : List Nat) (k : List (String × Nat)) :
    (c'.get_bucket a k).1 = (c.get_bucket a k).1 := by
  unfold Cooldown.get_bucket
  rw [hbk]
  cases c.bucket <;> rfl

theorem run_calls_cons {ρ : Type} (c : Cooldown)
    (check : List Nat → List (String × Nat) → Bool)
    (f : List Nat → List (String × Nat) → ρ) (now : Nat) (ts : List Nat)
    (a : List Nat) (k : List (String × Nat)) :
    c.run_calls check f (now :: ts) a k =
      ((c.inner check f now a k).1 ::
        ((c.inner check f now a k).2.run_calls check f ts a k).1,
       ((c.inner check f now a k).2.run_calls check f ts a k).2) := by
  rw [Cooldown.run_calls]

theorem run_calls_exhaust {ρ : Type} (f : List Nat → List (String × Nat) → ρ)
    (a : List Nat) (k : List (String × Nat)) (b : HashableArguments) :
    ∀ (ts : List Nat) (c : Cooldown) (tr : CooldownTimesPer),
      (c.get_bucket a k).1 = b →
      cacheLookup c.cache b = some tr →
      (∀ x ∈ ts, x < tr.window_deadline) →
      tr.consumed ≤ tr.limit →
      ts.length = tr.limit - tr.consumed + 1 →
      ∃ r, (c.run_calls (fun _ _ => true) f ts a k).1 =
        List.replicate (tr.limit - tr.consumed) (Except.ok (f a k)) ++
          [Except.error { bucket := b, retry_after := r }] := by
  intro ts
  induction ts with
  | nil =>
      intro c tr _ _ _ _ hlen
      simp at hlen
  | cons now ts' ih =>
      intro c tr hb h hin hle hlen
      have hnow : now < tr.window_deadline := hin now (List.mem_cons_self _ _)
      rw [run_calls_cons, inner_with_true, call_present c now a k b tr hb h,
        aenter_no_reset tr now hnow]
      by_cases hcl : tr.consumed < tr.limit
      · rw [if_pos hcl]
        have hb' :
            (({ c with
                last_bucket := some b,
                cache := cacheSet c.cache b { tr with consumed := tr.consumed + 1 } } :
              Cooldown).get_bucket a k).1 = b :=
          (get_bucket_fst_congr c
            { c with
              last_bucket := some b,
              cache := cacheSet c.cache b { tr with consumed := tr.consumed + 1 } }
            rfl a k).trans hb
        have h' : cacheLookup
            (cacheSet c.cache b { tr with consumed := tr.consumed + 1 }) b =
            some { tr with consumed := tr.consumed + 1 } :=
          cacheLookup_set_self c.cache b _ tr h
        obtain ⟨r, hres⟩ := ih _ { tr with consumed := tr.consumed + 1 } hb' h'
          (fun x hx => hin x (List.mem_cons_of_mem _ hx)) hcl
          (by
            have hts : ts'.length = tr.limit - tr.consumed := by
              simpa using hlen
            show ts'.length = tr.limit - (tr.consumed + 1) + 1
            omega)
        refine ⟨r, ?_⟩
        have hrep : tr.limit - tr.consumed = (tr.limit - (tr.consumed + 1)) + 1 := by
          omega
        rw [hrep, List.replicate_succ]
        simp only [List.cons_append]
        rw [← hres]
      · rw [if_neg hcl]
        have hj : tr.limit - tr.consumed = 0 := by omega
        have hts : ts' = [] := by
          have h1 : ts'.length + 1 = tr.limit - tr.consumed + 1 := by
            simpa using hlen
          exact List.eq_nil_of_length_eq_zero (by omega)
        subst hts
        exact ⟨tr.window_deadline - now, by simp [hj, Cooldown.run_calls]⟩

/-! ### Lemmas for the tracker-parameter invariant -/

theorem cacheLookup_remove_sub (l : BucketCache) (b b' : HashableArguments)
    (t : CooldownTimesPer) (h : cacheLookup (cacheRemove l b) b' = some t) :
    cacheLookup l b' = some t := by
  by_cases hb : b' = b
  · subst hb
    rw [cacheLookup_remove_self] at h
    cases h
  · rwa [cacheLookup_remove_other l b b' hb] at h

theorem cacheLookup_insert_cases (l : BucketCache) (b b' : HashableArguments)
    (t t' : CooldownTimesPer)
    (h : cacheLookup (cacheInsert l b t) b' = some t') :
    cacheLookup l b' = some t' ∨ (cacheLookup l b' = none ∧ b = b' ∧ t' = t) := by
  induction l with
  | nil =>
      rw [cacheInsert, List.nil_append, cacheLookup] at h
      by_cases hb : b = b'
      · rw [if_pos hb] at h
        injection h with he
        exact Or.inr ⟨rfl, hb, he.symm⟩
      · rw [if_neg hb] at h
        simp [cacheLookup] at h
  | cons p rest ih =>
      obtain ⟨q, v⟩ := p
      rw [cacheInsert, List.cons_append, cacheLookup] at h
      by_cases hq : q = b'
      · rw [if_pos hq] at h
        rw [cacheLookup, if_pos hq]
        exact Or.inl h
      · rw [if_neg hq] at h
        rw [cacheLookup, if_neg hq]
        exact ih h

theorem cacheLookup_set_self_inv (l : BucketCache) (b : HashableArguments)
    (t t' : CooldownTimesPer)
    (h : cacheLookup (cacheSet l b t) b = some t') : t' = t := by
  induction l with
  | nil => simp [cacheSet, cacheLookup] at h
  | cons p rest ih =>
      obtain ⟨q, v⟩ := p
      by_cases hq : q = b
      · rw [cacheSet, if_pos hq, cacheLookup, if_pos hq] at h
        injection h with he
        exact he.symm
      · rw [cacheSet, if_neg hq, cacheLookup, if_neg hq] at h
        exact ih h

theorem aenter_fields (t : CooldownTimesPer) (now : Nat) (t' : CooldownTimesPer)
    (h : t.aenter now = Except.ok t') :
    t'.limit = t.limit ∧ t'.time_period = t.time_period ∧ t'.owner = t.owner := by
  rw [CooldownTimesPer.aenter] at h
  split at h <;> split at h <;>
    first
      | (injection h with he; subst he; exact ⟨rfl, rfl, rfl⟩)
      | cases h

theorem remaining_calls_snd (c : Cooldown) (a : List Nat)
    (k : List (String × Nat)) : (c.remaining_calls a k).2 = c := by
  cases h : cacheLookup c.cache (c.get_bucket a k).1 with
  | none => rw [Cooldown.remaining_calls, get_cooldown_for_bucket_absent_raise c _ h]
  | some t => rw [Cooldown.remaining_calls, get_cooldown_for_bucket_present c _ t true h]

theorem inner_snd {ρ : Type} (c : Cooldown)
    (check : List Nat → List (String × Nat) → Bool)
    (f : List Nat → List (String × Nat) → ρ) (now : Nat) (a : List Nat)
    (k : List (String × Nat)) :
    (c.inner check f now a k).2 =
      if check a k = false then c else (c.call now a k).2 := by
  rw [Cooldown.inner]
  split
  · rfl
  · rcases hc : c.call now a k with ⟨r, c'⟩
    cases r <;> rfl

theorem trackerInv_clear_one (c : Cooldown) (b : HashableArguments) (now : Nat)
    (force : Bool) (h : c.TrackerInv) : (c.clear_one b now force).TrackerInv := by
  cases hl : cacheLookup c.cache b with
  | none =>
      rw [clear_one_absent c b now force hl]
      exact h
  | some t =>
      by_cases hc : (!(t.has_cooldown now) || force) = true
      · rw [clear_one_evict c b now force t hl hc]
        intro b' t' h'
        have h₂ : cacheLookup (cacheRemove c.cache b) b' = some t' := h'
        exact h b' t' (cacheLookup_remove_sub c.cache b b' t' h₂)
      · have hcf : (!(t.has_cooldown now) || force) = false := by
          cases hbb : (!(t.has_cooldown now) || force)
          · rfl
          · exact absurd hbb hc
        rw [clear_one_noop c b now force t hl hcf]
        exact h

theorem trackerInv_foldl_clear (now : Nat) (force : Bool) :
    ∀ (ks : List HashableArguments) (c : Cooldown), c.TrackerInv →
      (ks.foldl (fun acc b => acc.clear_one b now force) c).TrackerInv := by
  intro ks
  induction ks with
  | nil => intro c h; exact h
  | cons b ks ih =>
      intro c h
      exact ih _ (trackerInv_clear_one c b now force h)

theorem clear_none_eq (c : Cooldown) (now : Nat) (force : Bool) :
    c.clear none now force =
      match (c.cache.map Prod.fst).getLast? with
      | some b =>
          ((c.cache.map Prod.fst).foldl
            (fun acc b => acc.clear_one b now force) c).clear_one b now force
      | none =>
          (c.cache.map Prod.fst).foldl (fun acc b => acc.clear_one b now force) c := by
  rw [Cooldown.clear]

theorem trackerInv_clear (c : Cooldown) (ob : Option HashableArguments)
    (now : Nat) (force : Bool) (h : c.TrackerInv) :
    (c.clear ob now force).TrackerInv := by
  cases ob with
  | some b => exact trackerInv_clear_one c b now force h
  | none =>
      rw [clear_none_eq]
      cases (c.cache.map Prod.fst).getLast? with
      | some b =>
          exact trackerInv_clear_one _ b now force
            (trackerInv_foldl_clear now force _ c h)
      | none => exact trackerInv_foldl_clear now force _ c h

theorem trackerInv_get_cooldown_for_bucket (c : Cooldown) (b : HashableArguments)
    (roc : Bool) (h : c.TrackerInv) :
    ((c.get_cooldown_for_bucket b roc).2).TrackerInv := by
  cases hl : cacheLookup c.cache b with
  | some t =>
      rw [get_cooldown_for_bucket_present c b t roc hl]
      exact h
  | none =>
      cases roc with
      | true =>
          rw [get_cooldown_for_bucket_absent_raise c b hl]
          exact h
      | false =>
          rw [get_cooldown_for_bucket_absent_create c b hl]
          intro b' t' h'
          have h₂ : cacheLookup
              (cacheInsert c.cache b (CooldownTimesPer.fresh c.limit c.time_period c.id))
              b' = some t' := h'
          rcases cacheLookup_insert_cases c.cache b b' _ t' h₂ with h₀ | ⟨_, _, ht⟩
          · exact h b' t' h₀
          · subst ht
            exact ⟨rfl, rfl, rfl⟩

theorem trackerInv_call (c : Cooldown) (now : Nat) (a : List Nat)
    (k : List (String × Nat)) (h : c.TrackerInv) :
    ((c.call now a k).2).TrackerInv := by
  cases hl : cacheLookup c.cache (c.get_bucket a k).1 with
  | some tr =>
      rw [call_present c now a k (c.get_bucket a k).1 tr rfl hl]
      cases ha : tr.aenter now with
      | ok t' =>
          intro b' t'' h''
          have h₂ : cacheLookup (cacheSet c.cache (c.get_bucket a k).1 t') b' =
              some t'' := h''
          by_cases hb : b' = (c.get_bucket a k).1
          · rw [hb] at h₂
            have he := cacheLookup_set_self_inv c.cache ((c.get_bucket a k).1) t' t'' h₂
            rw [he]
            obtain ⟨h1, h2, h3⟩ := aenter_fields tr now t' ha
            obtain ⟨g1, g2, g3⟩ := h ((c.get_bucket a k).1) tr hl
            exact ⟨h1.trans g1, h2.trans g2, h3.trans g3⟩
          · rw [cacheLookup_set_other c.cache _ b' t' hb] at h₂
            exact h b' t'' h₂
      | error r =>
          intro b' t'' h''
          exact h b' t'' h''
  | none =>
      rw [call_absent c now a k (c.get_bucket a k).1 rfl hl, fresh_aenter]
      by_cases hL : 0 < c.limit
      · rw [if_pos hL]
        intro b' t'' h''
        have h₂ : cacheLookup
            (cacheSet
              (cacheInsert c.cache (c.get_bucket a k).1
                (CooldownTimesPer.fresh c.limit c.time_period c.id))
              (c.get_bucket a k).1
              { limit := c.limit, time_period := c.time_period, consumed := 1,
                window_start := now, window_deadline := now + c.time_period,
                owner := c.id }) b' = some t'' := h''
        by_cases hb : b' = (c.get_bucket a k).1
        · rw [hb] at h₂
          have he := cacheLookup_set_self_inv _ ((c.get_bucket a k).1) _ t'' h₂
          subst he
          exact ⟨rfl, rfl, rfl⟩
        · rw [cacheLookup_set_other _ _ b' _ hb] at h₂
          rcases cacheLookup_insert_cases c.cache _ b' _ t'' h₂ with h₀ | ⟨_, hbb, _⟩
          · exact h b' t'' h₀
          · exact absurd hbb.symm hb
      · rw [if_neg hL]
        intro b' t'' h''
        have h₂ : cacheLookup
            (cacheInsert c.cache (c.get_bucket a k).1
              (CooldownTimesPer.fresh c.limit c.time_period c.id)) b' =
            some t'' := h''
        rcases cacheLookup_insert_cases c.cache _ b' _ t'' h₂ with h₀ | ⟨_, _, ht⟩
        · exact h b' t'' h₀
        · subst ht
          exact ⟨rfl, rfl, rfl⟩

theorem trackerInv_inner {ρ : Type} (c : Cooldown)
    (check : List Nat → List (String × Nat) → Bool)
    (f : List Nat → List (String × Nat) → ρ) (now : Nat) (a : List Nat)
    (k : List (String × Nat)) (h : c.TrackerInv) :
    ((c.inner check f now a k).2).TrackerInv := by
  rw [inner_snd]
  split
  · exact h
  · exact trackerInv_call c now a k h

/-- A bucket key used by witnesses. -/
def exBucket : HashableArguments := { args := [1], kwargs := [] }

/-- Another bucket key, absent from the witness caches. -/
def exMissing : HashableArguments := { args := [9], kwargs := [] }

/-- A tracker holding an active cooldown at time `3` (one call consumed,
window deadline `10`). -/
def exActive : CooldownTimesPer :=
  { limit := 2, time_period := 5, consumed := 1, window_start := 0,
    window_deadline := 10, owner := 0 }

/-- An idle tracker (nothing consumed). -/
def exIdle : CooldownTimesPer :=
  { limit := 2, time_period := 5, consumed := 0, window_start := 0,
    window_deadline := 10, owner := 0 }

/-- A coordinator with an empty cache. -/
def exEmpty : Cooldown :=
  { id := 0, limit := 2, time_period := 5, bucket := CooldownBucket.all,
    cache := [], last_bucket := none }

/-- A coordinator caching one active and one idle tracker. -/
def exLoaded : Cooldown :=
  { id := 0, limit := 2, time_period := 5, bucket := CooldownBucket.all,
    cache := [(exBucket, exActive), ({ args := [2], kwargs := [] }, exIdle)],
    last_bucket := none }

/-! ### Claim theorems -/

/-- C1: over a fresh bucket, with the check truthy, a sequence of
`limit + 1` wrapped calls all timed before the window opened by the first
call rolls over has exactly the first `limit` calls succeed with the wrapped
result returned unchanged, and the final call fail with
`CallableOnCooldown`; the times of the later calls are arbitrary within the
window, so the property holds regardless of call ordering. -/
theorem cooldown_limit_exact {ρ : Type} (c : Cooldown)
    (f : List Nat → List (String × Nat) → ρ) (a : List Nat)
    (k : List (String × Nat)) (t0 : Nat) (rest : List Nat)
    (hfresh : cacheLookup c.cache (c.get_bucket a k).1 = none)
    (hlen : rest.length = c.limit)
    (hwin : ∀ x ∈ t0 :: rest, x < t0 + c.time_period) :
    ∃ r, (c.run_calls (fun _ _ => true) f (t0 :: rest) a k).1 =
      List.replicate c.limit (Except.ok (f a k)) ++
        [Except.error { bucket := (c.get_bucket a k).1, retry_after := r }] := by
  rw [run_calls_cons, inner_with_true,
    call_absent c t0 a k (c.get_bucket a k).1 rfl hfresh, fresh_aenter]
  by_cases hL : 0 < c.limit
  · rw [if_pos hL]
    have htr : cacheLookup
        (cacheSet
          (cacheInsert c.cache (c.get_bucket a k).1
            (CooldownTimesPer.fresh c.limit c.time_period c.id))
          (c.get_bucket a k).1
          { limit := c.limit, time_period := c.time_period, consumed := 1,
            window_start := t0, window_deadline := t0 + c.time_period,
            owner := c.id })
        (c.get_bucket a k).1 =
        some { limit := c.limit, time_period := c.time_period, consumed := 1,
               window_start := t0, window_deadline := t0 + c.time_period,
               owner := c.id } :=
      cacheLookup_set_self _ _ _ _ (cacheLookup_insert_self c.cache _ _ hfresh)
    obtain ⟨r, hres⟩ := run_calls_exhaust f a k (c.get_bucket a k).1 rest
      { c with
        last_bucket := some (c.get_bucket a k).1,
        cache := cacheSet
          (cacheInsert c.cache (c.get_bucket a k).1
            (CooldownTimesPer.fresh c.limit c.time_period c.id))
          (c.get_bucket a k).1
          { limit := c.limit, time_period := c.time_period, consumed := 1,
            window_start := t0, window_deadline := t0 + c.time_period,
            owner := c.id } }
      { limit := c.limit, time_period := c.time_period, consumed := 1,
        window_start := t0, window_deadline := t0 + c.time_period,
        owner := c.id }
      (get_bucket_fst_congr c
        { c with
          last_bucket := some (c.get_bucket a k).1,
          cache := cacheSet
            (cacheInsert c.cache (c.get_bucket a k).1
              (CooldownTimesPer.fresh c.limit c.time_period c.id))
            (c.get_bucket a k).1
            { limit := c.limit, time_period := c.time_period, consumed := 1,
              window_start := t0, window_deadline := t0 + c.time_period,
              owner := c.id } }
        rfl a k)
      htr
      (fun x hx => hwin x (List.mem_cons_of_mem _ hx))
      hL
      (by
        show rest.length = c.limit - 1 + 1
        omega)
    refine ⟨r, ?_⟩
    have hrep : List.replicate c.limit
          (Except.ok (f a k) : Except CallableOnCooldown ρ) =
        Except.ok (f a k) :: List.replicate (c.limit - 1) (Except.ok (f a k)) := by
      rw [← List.replicate_succ]
      congr 1
      omega
    rw [hrep]
    simp only [List.cons_append]
    rw [← hres]
  · rw [if_neg hL]
    have hL0 : c.limit = 0 := by omega
    have hrest : rest = [] :=
      List.eq_nil_of_length_eq_zero (by rw [hlen, hL0])
    subst hrest
    exact ⟨c.time_period, by simp [hL0, Cooldown.run_calls]⟩

/-- Witness for C1 at concrete inputs: limit 2, window 5, three calls at
times 0, 3, 1 (out of order within the window) give two successes returning
the wrapped result and then a `CallableOnCooldown` failure. -/
theorem cooldown_limit_exact_witness :
    cacheLookup exEmpty.cache (exEmpty.get_bucket [1] []).1 = none ∧
    [3, 1].length = exEmpty.limit ∧
    (∀ x ∈ [0, 3, 1], x < 0 + exEmpty.time_period) ∧
    ∃ r, (exEmpty.run_calls (fun _ _ => true) (fun _ _ => (7 : Nat)) [0, 3, 1] [1] []).1 =
      List.replicate exEmpty.limit (Except.ok 7) ++
        [Except.error { bucket := (exEmpty.get_bucket [1] []).1, retry_after := r }] :=
  ⟨by decide, by decide, by decide,
   cooldown_limit_exact exEmpty (fun _ _ => 7) [1] [] 0 [3, 1]
     (by decide) (by decide) (by decide)⟩

/-- C2: `remaining_calls` leaves the coordinator state (in particular the
cache contents) unchanged, returns `limit` when the resolved bucket has no
tracker in the cache, and the remaining count `limit - consumed` of the
tracker when one exists. -/
theorem remaining_calls_spec (c : Cooldown) (a : List Nat)
    (k : List (String × Nat)) :
    ((c.remaining_calls a k).2 = c) ∧
    (cacheLookup c.cache (c.get_bucket a k).1 = none →
      (c.remaining_calls a k).1 = c.limit) ∧
    (∀ t, cacheLookup c.cache (c.get_bucket a k).1 = some t →
      (c.remaining_calls a k).1 = t.limit - t.consumed) := by
  cases h : cacheLookup c.cache (c.get_bucket a k).1 with
  | none =>
      have hr : c.remaining_calls a k = (c.limit, c) := by
        rw [Cooldown.remaining_calls, get_cooldown_for_bucket_absent_raise c _ h]
      refine ⟨by rw [hr], fun _ => by rw [hr], fun t ht => ?_⟩
      cases ht
  | some t =>
      have hr : c.remaining_calls a k = (t.current, c) := by
        rw [Cooldown.remaining_calls, get_cooldown_for_bucket_present c _ t true h]
      refine ⟨by rw [hr], fun hn => ?_, fun t' ht' => ?_⟩
      · cases hn
      · injection ht' with he
        subst he
        rw [hr]
        rfl

/-- Witness for C2 at concrete inputs: a cached bucket with one call consumed
reports one remaining call, and an uncached bucket reports the full limit. -/
theorem remaining_calls_spec_witness :
    (cacheLookup exLoaded.cache (exLoaded.get_bucket [1] []).1 = some exActive ∧
      (exLoaded.remaining_calls [1] []).1 = exActive.limit - exActive.consumed) ∧
    (cacheLookup exEmpty.cache (exEmpty.get_bucket [1] []).1 = none ∧
      (exEmpty.remaining_calls [1] []).1 = exEmpty.limit) :=
  ⟨⟨by decide, (remaining_calls_spec exLoaded [1] []).2.2 exActive (by decide)⟩,
   ⟨by decide, (remaining_calls_spec exEmpty [1] []).2.1 (by decide)⟩⟩

/-- C3: with `force_evict` false, `clear` on a cached key keeps the entry
whenever its tracker has an active cooldown and evicts it otherwise; with
`force_evict` true it evicts unconditionally; with no key it applies exactly
the per-key rule to every entry present at the start of the call, the key set
being snapshot before iterating. -/
theorem clear_respects_active_cooldowns (c : Cooldown) (now : Nat) :
    (∀ b t, cacheLookup c.cache b = some t → t.has_cooldown now = true →
      c.clear (some b) now false = c) ∧
    (∀ b t, cacheLookup c.cache b = some t → t.has_cooldown now = false →
      c.clear (some b) now false = { c with cache := cacheRemove c.cache b }) ∧
    (∀ b, c.clear (some b) now true = { c with cache := cacheRemove c.cache b }) ∧
    (c.WF → ∀ force, c.clear none now force =
      { c with cache := c.cache.filter (fun p => p.2.has_cooldown now && !force) }) := by
  refine ⟨?_, ?_, ?_, ?_⟩
  · intro b t h hc
    exact clear_one_keep c b now t h hc
  · intro b t h hc
    exact clear_one_evict c b now false t h (by simp [hc])
  · intro b
    cases h : cacheLookup c.cache b with
    | some t => exact clear_one_evict c b now true t h (by simp)
    | none =>
        rw [show c.clear (some b) now true = c.clear_one b now true from rfl,
          clear_one_absent c b now true h, cacheRemove_of_absent c.cache b h]
  · intro hwf force
    exact clear_none_eq_filter c now force hwf

/-- Witness for C3 at concrete inputs: at time `3` the active tracker
survives a non-forced clear of its key, and a global non-forced clear filters
the cache down to the entries holding active cooldowns. -/
theorem clear_respects_active_cooldowns_witness :
    (cacheLookup exLoaded.cache exBucket = some exActive ∧
      exActive.has_cooldown 3 = true ∧
      exLoaded.clear (some exBucket) 3 false = exLoaded) ∧
    (exLoaded.WF ∧
      exLoaded.clear none 3 false =
        { exLoaded with cache :=
            exLoaded.cache.filter (fun p => p.2.has_cooldown 3 && !false) }) :=
  ⟨⟨by decide, by decide,
    (clear_respects_active_cooldowns exLoaded 3).1 exBucket exActive
      (by decide) (by decide)⟩,
   ⟨by show (exLoaded.cache.map Prod.fst).Nodup; decide,
    (clear_respects_active_cooldowns exLoaded 3).2.2.2
      (by show (exLoaded.cache.map Prod.fst).Nodup; decide) false⟩⟩

/-- C4: a cycle of the background sweep task is exactly the global `clear`
with `force_evict` false, and therefore never removes from the cache a
tracker that reports an active cooldown. -/
theorem sweep_never_evicts_active (c : Cooldown) (now : Nat) :
    c.keep_buckets_clear_step now = c.clear none now false ∧
    (c.WF → ∀ b t, cacheLookup c.cache b = some t → t.has_cooldown now = true →
      cacheLookup (c.keep_buckets_clear_step now).cache b = some t) := by
  refine ⟨rfl, ?_⟩
  intro hwf b t h hc
  rw [Cooldown.keep_buckets_clear_step, clear_none_eq_filter c now false hwf]
  exact cacheLookup_filter_of_pred c.cache (fun t => t.has_cooldown now && !false)
    b t h (by simp [hc])

/-- Witness for C4 at concrete inputs: the active tracker of `exLoaded` is
still cached after a sweep cycle at time `3`. -/
theorem sweep_never_evicts_active_witness :
    exLoaded.WF ∧ cacheLookup exLoaded.cache exBucket = some exActive ∧
    exActive.has_cooldown 3 = true ∧
    cacheLookup (exLoaded.keep_buckets_clear_step 3).cache exBucket = some exActive :=
  ⟨by show (exLoaded.cache.map Prod.fst).Nodup; decide, by decide, by decide,
    (sweep_never_evicts_active exLoaded 3).2
      (by show (exLoaded.cache.map Prod.fst).Nodup; decide) exBucket exActive
      (by decide) (by decide)⟩

/-- C5: `get_bucket` mutates no coordinator state, is deterministic, and its
keys collide exactly when the fields significant to the fixed strategy agree:
all positional and keyword arguments for `all`, the positional arguments for
`args`, the keyword arguments for `kwargs`. -/
theorem get_bucket_pure_deterministic (c : Cooldown) (a₁ a₂ : List Nat)
    (k₁ k₂ : List (String × Nat)) :
    ((c.get_bucket a₁ k₁).2 = c) ∧
    (a₁ = a₂ → k₁ = k₂ → (c.get_bucket a₁ k₁).1 = (c.get_bucket a₂ k₂).1) ∧
    (c.bucket = CooldownBucket.all →
      ((c.get_bucket a₁ k₁).1 = (c.get_bucket a₂ k₂).1 ↔ a₁ = a₂ ∧ k₁ = k₂)) ∧
    (c.bucket = CooldownBucket.args →
      ((c.get_bucket a₁ k₁).1 = (c.get_bucket a₂ k₂).1 ↔ a₁ = a₂)) ∧
    (c.bucket = CooldownBucket.kwargs →
      ((c.get_bucket a₁ k₁).1 = (c.get_bucket a₂ k₂).1 ↔ k₁ = k₂)) := by
  cases hb : c.bucket <;>
    simp [Cooldown.get_bucket, hb, HashableArguments.mk.injEq] <;>
    intro h1 h2 <;> simp [h1, h2]

/-- Witness for C5 at concrete inputs: under the `args` strategy two calls
with equal positional arguments and different keyword arguments share a
bucket key. -/
theorem get_bucket_pure_deterministic_witness :
    ((exLoaded.get_bucket [1] [("x", 1)]).2 = exLoaded) ∧
    (exLoaded.bucket = CooldownBucket.all ∧
      ¬(exLoaded.get_bucket [1] [("x", 1)]).1 = (exLoaded.get_bucket [1] []).1) :=
  ⟨(get_bucket_pure_deterministic exLoaded [1] [1] [("x", 1)] [("x", 1)]).1,
   by
    refine ⟨rfl, ?_⟩
    intro he
    have h := ((get_bucket_pure_deterministic exLoaded [1] [1]
      [("x", 1)] []).2.2.1 rfl).1 he
    cases h.2⟩

/-- C6 counterexample: constructing a coordinator with `limit = 0` and
`time_period = 0` (both non-positive) raises nothing; the constructor stores
the values and succeeds, contradicting the claim that such a construction
raises a fatal configuration error. -/
theorem constructor_no_validation_counterexample :
    Cooldown.init 7 0 0 CooldownBucket.all =
      Except.ok { id := 7, limit := 0, time_period := 0,
                  bucket := CooldownBucket.all, cache := [],
                  last_bucket := none } := rfl

/-- C6 as amended: wrapping a non-asynchronous callable raises a fatal error
at wrapping time, before any call is made; constructing a coordinator
validates neither `limit` nor `time_period`, storing them and succeeding for
every input. -/
theorem wrap_time_validation_amended :
    (∀ c : Cooldown,
      cooldown_decorator false c = Except.error ConfigurationError.notCoroutine) ∧
    (∀ (i l p : Nat) (bk : CooldownBucket), ∃ cd : Cooldown,
      Cooldown.init i l p bk = Except.ok cd ∧ cd.limit = l ∧ cd.time_period = p) :=
  ⟨fun _ => rfl, fun i l p bk =>
    ⟨{ id := i, limit := l, time_period := p, bucket := bk, cache := [],
       last_bucket := none }, rfl, rfl, rfl⟩⟩

/-- C7: when the check predicate evaluates falsy, the wrapper invokes the
wrapped callable directly and returns its result, leaving the coordinator
state (cache, trackers, last-resolved bucket) entirely unchanged. -/
theorem check_falsy_bypasses {ρ : Type} (c : Cooldown)
    (check : List Nat → List (String × Nat) → Bool)
    (f : List Nat → List (String × Nat) → ρ) (now : Nat) (a : List Nat)
    (k : List (String × Nat)) (h : check a k = false) :
    c.inner check f now a k = (Except.ok (f a k), c) := by
  simp [Cooldown.inner, h]

/-- Witness for C7 at concrete inputs: with an always-false check the wrapped
result comes back and the coordinator is untouched. -/
theorem check_falsy_bypasses_witness :
    ((fun (_ : List Nat) (_ : List (String × Nat)) => false) [3] [] = false) ∧
    exLoaded.inner (fun _ _ => false) (fun _ _ => (7 : Nat)) 0 [3] [] =
      (Except.ok 7, exLoaded) :=
  ⟨rfl, check_falsy_bypasses exLoaded (fun _ _ => false) (fun _ _ => 7) 0 [3] [] rfl⟩

/-- C8: the non-creating lookup raises `NonExistent` exactly when the key has
no cache entry and never touches the state; the creating mode never fails,
returning the existing tracker unchanged or inserting and returning a fresh
zero-consumption tracker; and the absent signal never escapes the coordinator:
its only caller, `remaining_calls`, catches it and returns the limit. -/
theorem nonexistent_signal_spec (c : Cooldown) (b : HashableArguments) :
    ((c.get_cooldown_for_bucket b true).1 = Except.error NonExistent.nonExistent ↔
      cacheLookup c.cache b = none) ∧
    ((c.get_cooldown_for_bucket b true).2 = c) ∧
    (∃ t c', c.get_cooldown_for_bucket b false = (Except.ok t, c') ∧
      cacheLookup c'.cache b = some t ∧
      (∀ t₀, cacheLookup c.cache b = some t₀ → t = t₀ ∧ c' = c) ∧
      (cacheLookup c.cache b = none →
        t.consumed = 0 ∧ t = CooldownTimesPer.fresh c.limit c.time_period c.id ∧
        c'.cache = cacheInsert c.cache b t)) ∧
    (∀ a k, (c.get_bucket a k).1 = b → cacheLookup c.cache b = none →
      (c.remaining_calls a k).1 = c.limit) := by
  cases h : cacheLookup c.cache b with
  | some t =>
      refine ⟨?_, ?_, ?_, ?_⟩
      · rw [get_cooldown_for_bucket_present c b t true h]
        simp
      · rw [get_cooldown_for_bucket_present c b t true h]
      · refine ⟨t, c, ?_, h, ?_, ?_⟩
        · rw [get_cooldown_for_bucket_false, get_or_create_present c b t h]
        · intro t₀ ht₀
          injection ht₀ with he
          exact ⟨he, rfl⟩
        · intro habs
          cases habs
      · intro a k _ habs
        cases habs
  | none =>
      refine ⟨?_, ?_, ?_, ?_⟩
      · rw [get_cooldown_for_bucket_absent_raise c b h]
        simp
      · rw [get_cooldown_for_bucket_absent_raise c b h]
      · refine ⟨CooldownTimesPer.fresh c.limit c.time_period c.id,
          { c with cache :=
              cacheInsert c.cache b (CooldownTimesPer.fresh c.limit c.time_period c.id) },
          ?_, ?_, ?_, ?_⟩
        · rw [get_cooldown_for_bucket_false, get_or_create_absent c b h]
        · exact cacheLookup_insert_self c.cache b _ h
        · intro t₀ ht₀
          cases ht₀
        · intro _
          exact ⟨rfl, rfl, rfl⟩
      · intro a k hga _
        have hr : c.remaining_calls a k = (c.limit, c) := by
          rw [Cooldown.remaining_calls, hga,
            get_cooldown_for_bucket_absent_raise c b h]
        rw [hr]

/-- Witness for C8: the full specification instantiated at a coordinator and
a key absent from its cache. -/
theorem nonexistent_signal_spec_witness :
    ((exLoaded.get_cooldown_for_bucket exMissing true).1 =
        Except.error NonExistent.nonExistent ↔
      cacheLookup exLoaded.cache exMissing = none) ∧
    ((exLoaded.get_cooldown_for_bucket exMissing true).2 = exLoaded) ∧
    (∃ t c', exLoaded.get_cooldown_for_bucket exMissing false = (Except.ok t, c') ∧
      cacheLookup c'.cache exMissing = some t ∧
      (∀ t₀, cacheLookup exLoaded.cache exMissing = some t₀ → t = t₀ ∧ c' = exLoaded) ∧
      (cacheLookup exLoaded.cache exMissing = none →
        t.consumed = 0 ∧
        t = CooldownTimesPer.fresh exLoaded.limit exLoaded.time_period exLoaded.id ∧
        c'.cache = cacheInsert exLoaded.cache exMissing t)) ∧
    (∀ a k, (exLoaded.get_bucket a k).1 = exMissing →
      cacheLookup exLoaded.cache exMissing = none →
      (exLoaded.remaining_calls a k).1 = exLoaded.limit) :=
  nonexistent_signal_spec exLoaded exMissing

/-- C9: the coordinator invariant — every cached tracker was constructed with
exactly the limit and time period of its coordinator and a back-reference to
that same coordinator — is preserved by every operation of the coordinator:
the flagged cache accessor in both modes, the wrapped call path, the wrapper
with an arbitrary check, `clear` in all forms, `remaining_calls`, and the
background sweep cycle. -/
theorem tracker_inv_preserved (c : Cooldown) (hinv : c.TrackerInv) :
    (∀ b roc, ((c.get_cooldown_for_bucket b roc).2).TrackerInv) ∧
    (∀ now a k, ((c.call now a k).2).TrackerInv) ∧
    (∀ (ρ : Type) (check : List Nat → List (String × Nat) → Bool)
      (f : List Nat → List (String × Nat) → ρ) (now : Nat) (a : List Nat)
      (k : List (String × Nat)), ((c.inner check f now a k).2).TrackerInv) ∧
    (∀ ob now force, (c.clear ob now force).TrackerInv) ∧
    (∀ a k, ((c.remaining_calls a k).2).TrackerInv) ∧
    (∀ now, (c.keep_buckets_clear_step now).TrackerInv) :=
  ⟨fun b roc => trackerInv_get_cooldown_for_bucket c b roc hinv,
   fun now a k => trackerInv_call c now a k hinv,
   fun _ check f now a k => trackerInv_inner c check f now a k hinv,
   fun ob now force => trackerInv_clear c ob now force hinv,
   fun a k => by
    rw [remaining_calls_snd]
    exact hinv,
   fun now => trackerInv_clear c none now false hinv⟩

/-- Witness for C9 at concrete inputs: the empty-cache coordinator satisfies
the invariant, and it still holds after a wrapped call that creates and
acquires a tracker. -/
theorem tracker_inv_preserved_witness :
    exEmpty.TrackerInv ∧ ((exEmpty.call 0 [1] []).2).TrackerInv :=
  ⟨fun _ _ h => Option.noConfusion h,
   (tracker_inv_preserved exEmpty (fun _ _ h => Option.noConfusion h)).2.1 0 [1] []⟩

/-- C10: `clear` on a key with no cache entry is a silent no-op for either
value of `force_evict`: the caught `KeyError` leaves the coordinator exactly
as it was. -/
theorem clear_missing_key_noop (c : Cooldown) (b : HashableArguments)
    (now : Nat) (force : Bool) (h : cacheLookup c.cache b = none) :
    c.clear (some b) now force = c :=
  clear_one_absent c b now force h

/-- Witness for C10 at concrete inputs: clearing an uncached key, forced or
not, returns the coordinator unchanged. -/
theorem clear_missing_key_noop_witness :
    cacheLookup exLoaded.cache exMissing = none ∧
    exLoaded.clear (some exMissing) 3 false = exLoaded ∧
    exLoaded.clear (some exMissing) 3 true = exLoaded :=
  ⟨by decide, clear_missing_key_noop exLoaded exMissing 3 false (by decide),
   clear_missing_key_noop exLoaded exMissing 3 true (by decide)⟩

